import Mathlib

/-!
Shallow embedding of the `style-producer` core: the structured numeric CSS
value algebra (`src/value/numeric.impl.ts`, `src/value/value.ts`, the `Zero`
class of `src/value/numeric/numeric.impl.ts`), the selector model, and the
relevant parts of the render pipeline (`src/producer/produce-basic-style.ts`,
`src/selector/selector-text.impl.ts`).

JS numbers are modelled as rationals (no claim in scope depends on binary
floating point); JS reference identity is modelled, where a claim needs it,
by an allocation-counting variant of the corresponding operation that counts
constructor (`new`) invocations.
-/

namespace StyleProducer

/-- CSS property value priority: `'important' | undefined` in the source
(`StypValueStruct.priority`). `usual` stands for `undefined`. -/
inductive Priority where
  | usual
  | important
deriving DecidableEq, Repr

/-- Operator of a `StypAddSub` calc node. -/
inductive AddSubOp where
  | add
  | sub
deriving DecidableEq, Repr

/-- Operator of a `StypMulDiv` calc node. -/
inductive MulDivOp where
  | mul
  | div
deriving DecidableEq, Repr

/-- A dimension kind's zero flavor: `unitlessZeroDimensionKind` owns the
interned `StypZero`, while `unitZeroDimensionKind` owns a `StypDimension`
with value `0` and a fixed zero unit (`numeric.impl.ts`, bottom). -/
inductive ZeroSpec where
  | unitless
  | unitZero (zeroUnit : String)
deriving DecidableEq, Repr

/-- Structured numeric CSS value: `StypDimension`, the interned `StypZero`
(`type === '0'`), and the two calc node classes `StypAddSub` / `StypMulDiv`.
Every value carries its own priority; calc operands are stored
priority-normalized by the constructors (`left.usual()` in `StypCalcBase`,
`right.usual()` in `StypAddSub`). -/
inductive StypNum where
  | dim (val : ℚ) (unit : String) (priority : Priority)
  | zero (priority : Priority)
  | addSub (left : StypNum) (op : AddSubOp) (right : StypNum) (priority : Priority)
  | mulDiv (left : StypNum) (op : MulDivOp) (right : ℚ) (priority : Priority)
deriving DecidableEq, Repr

/-- The `priority` property of a structured value. -/
def priorityOf : StypNum → Priority
  | .dim _ _ p => p
  | .zero p => p
  | .addSub _ _ _ p => p
  | .mulDiv _ _ _ p => p

/-- The `type` getter: `'dimension'`, `'0'` or `'calc'`. -/
def typeOf : StypNum → String
  | .dim _ _ _ => "dimension"
  | .zero _ => "0"
  | .addSub _ _ _ _ => "calc"
  | .mulDiv _ _ _ _ => "calc"

/-- Whether the value is the interned zero (`value.type === '0'`). -/
def isZeroVariant : StypNum → Bool
  | .zero _ => true
  | _ => false

/-- Whether the value is a division calc node. -/
def isDivNode : StypNum → Bool
  | .mulDiv _ .div _ _ => true
  | _ => false

/-- Whether the value is a `StypMulDiv` node whose scalar is exactly 1.
Such nodes are reachable through the public API: `negate` on a scalar `-1`
node flips the scalar to `1`. -/
def isUnitScalarNode : StypNum → Bool
  | .mulDiv _ _ r _ => r == 1
  | _ => false

/-- `prioritize(priority)`: returns the receiver when the priority already
matches, otherwise re-constructs the node with the new priority
(`StypDimension.prioritize`, `StypAddSub.prioritize`, `StypMulDiv.prioritize`,
`Zero.prioritize`). The calc constructors re-normalize their operands to
usual priority (`StypCalcBase` stores `left.usual()`, `StypAddSub` stores
`right.usual()`). `Zero.prioritize` returns the interned per-priority
singleton. -/
def prioritize : StypNum → Priority → StypNum
  | .dim v u p, q => if p = q then .dim v u p else .dim v u q
  | .zero _, q => .zero q
  | .addSub l op r p, q =>
      if p = q then .addSub l op r p
      else .addSub (prioritize l .usual) op (prioritize r .usual) q
  | .mulDiv l op r p, q =>
      if p = q then .mulDiv l op r p
      else .mulDiv (prioritize l .usual) op r q

/-- `usual()`: the usual-priority variant (`StypValueStruct.usual`). -/
def usual (v : StypNum) : StypNum := prioritize v .usual

/-- Allocation-counting variant of `prioritize`: the second component counts
`new` constructor invocations performed by the call, `0` meaning the result
is a previously existing (interned or receiver) object. Mirrors `prioritize`
branch for branch. -/
def prioritizeA : StypNum → Priority → StypNum × Nat
  | .dim v u p, q => if p = q then (.dim v u p, 0) else (.dim v u q, 1)
  | .zero _, q => (.zero q, 0)
  | .addSub l op r p, q =>
      if p = q then (.addSub l op r p, 0)
      else
        let lu := prioritizeA l .usual
        let ru := prioritizeA r .usual
        (.addSub lu.1 op ru.1 q, lu.2 + ru.2 + 1)
  | .mulDiv l op r p, q =>
      if p = q then (.mulDiv l op r p, 0)
      else
        let lu := prioritizeA l .usual
        (.mulDiv lu.1 op r q, lu.2 + 1)

/-- The canonical zero of a dimension kind: the interned `StypZero` for
`unitlessZeroDimensionKind`, the `StypDimension(0, zeroUnit)` instance for
`unitZeroDimensionKind`. -/
def kindZero : ZeroSpec → StypNum
  | .unitless => .zero .usual
  | .unitZero zu => .dim 0 zu .usual

/-- `stypDimension(val, unit, opts)`: a fresh `StypDimension` when
`val !== 0`, otherwise `opts.dim.zero.prioritize(opts && opts.priority)`. -/
def stypDimension (k : ZeroSpec) (v : ℚ) (u : String) (p : Priority) : StypNum :=
  if v = 0 then prioritize (kindZero k) p else .dim v u p

/-- `stypAddSub(left, op, right)`: returns `left` when `right.type === '0'`,
otherwise `new StypAddSub(left, op, right, left)` (priority taken from the
left operand, operands stored priority-normalized by the constructors). -/
def stypAddSub (left : StypNum) (op : AddSubOp) (right : StypNum) : StypNum :=
  if isZeroVariant right then left
  else .addSub (usual left) op (usual right) (priorityOf left)

/-- `stypMul(left, right)`: `left.dim.zero.prioritize(left.priority)` when
the scalar is falsy, `left.prioritize(left.priority)` when it is `1`,
otherwise `new StypMulDiv(left, '*', right, left)`. -/
def stypMul (k : ZeroSpec) (left : StypNum) (right : ℚ) : StypNum :=
  if right = 0 then prioritize (kindZero k) (priorityOf left)
  else if right = 1 then prioritize left (priorityOf left)
  else .mulDiv (usual left) .mul right (priorityOf left)

/-- `stypDiv(left, right)`: `left.prioritize(left.priority)` when the scalar
is `1`, otherwise `new StypMulDiv(left, '/', right, left)`. -/
def stypDiv (left : StypNum) (right : ℚ) : StypNum :=
  if right = 1 then prioritize left (priorityOf left)
  else .mulDiv (usual left) .div right (priorityOf left)

/-- `negate()`: `StypDimension.negate` re-constructs via `stypDimension` with
the negated value; `Zero.negate` returns the receiver; `StypAddSub.negate`
swaps the operands of a subtraction and negates the left operand of an
addition (op becomes `'-'`); `StypMulDiv.negate` flips the scalar sign. -/
def negate (k : ZeroSpec) : StypNum → StypNum
  | .dim v u p => stypDimension k (-v) u p
  | .zero p => .zero p
  | .addSub l .sub r p => .addSub (usual r) .sub (usual l) p
  | .addSub l .add r p => .addSub (usual (negate k l)) .sub (usual r) p
  | .mulDiv l op r p => .mulDiv (usual l) op (-r) p

/-- `add(addendum)`: `StypDimension.add` sums same-unit dimensions via
`stypDimension` and otherwise delegates to `stypAddSub`; `Zero.add` returns
`addendum.prioritize(this.priority)`; the calc classes delegate to
`stypAddSub`. -/
def add (k : ZeroSpec) : StypNum → StypNum → StypNum
  | .dim v u p, b =>
      match b with
      | .dim w u' p' =>
          if u = u' then stypDimension k (v + w) u p
          else stypAddSub (.dim v u p) .add (.dim w u' p')
      | _ => stypAddSub (.dim v u p) .add b
  | .zero p, b => prioritize b p
  | .addSub l op r p, b => stypAddSub (.addSub l op r p) .add b
  | .mulDiv l op r p, b => stypAddSub (.mulDiv l op r p) .add b

/-- `sub(subtrahend)`: like `add`, with `Zero.sub` returning
`subtrahend.negate().prioritize(this.priority)`. -/
def sub (k : ZeroSpec) : StypNum → StypNum → StypNum
  | .dim v u p, b =>
      match b with
      | .dim w u' p' =>
          if u = u' then stypDimension k (v - w) u p
          else stypAddSub (.dim v u p) .sub (.dim w u' p')
      | _ => stypAddSub (.dim v u p) .sub b
  | .zero p, b => prioritize (negate k b) p
  | .addSub l op r p, b => stypAddSub (.addSub l op r p) .sub b
  | .mulDiv l op r p, b => stypAddSub (.mulDiv l op r p) .sub b

/-- `mul(multiplier)`: `StypDimension.mul` returns the receiver for `1` and
otherwise scales via `stypDimension`; `Zero.mul` returns the receiver;
`StypAddSub` inherits `StypCalcBase.mul` which delegates to `stypMul`;
`StypMulDiv.mul` folds the scalar into the node
(`stypMul(left, right * m)` for `'*'`, `stypDiv(left, right / m)` for `'/'`)
and re-applies its own priority. -/
def mul (k : ZeroSpec) : StypNum → ℚ → StypNum
  | .dim v u p, m => if m = 1 then .dim v u p else stypDimension k (v * m) u p
  | .zero p, _ => .zero p
  | .addSub l op r p, m => stypMul k (.addSub l op r p) m
  | .mulDiv l op r p, m =>
      match op with
      | .mul => prioritize (stypMul k l (r * m)) p
      | .div => prioritize (stypDiv l (r / m)) p

/-- `div(divisor)`: dual to `mul`. -/
def div (k : ZeroSpec) : StypNum → ℚ → StypNum
  | .dim v u p, d => if d = 1 then .dim v u p else stypDimension k (v / d) u p
  | .zero p, _ => .zero p
  | .addSub l op r p, d => stypDiv (.addSub l op r p) d
  | .mulDiv l op r p, d =>
      match op with
      | .div => prioritize (stypDiv l (r * d)) p
      | .mul => prioritize (stypMul k l (r / d)) p

/-- Well-formedness of a structured numeric value: the invariants every
value reachable through the public operations satisfies. Calc operands are
priority-normalized and never the interned zero (`stypAddSub`
short-circuits a zero right operand, and nodes are only ever built with a
dimension or calc left operand), and a multiplication scalar is never `0`
(`stypMul` collapses it, and `negate`/`prioritize` preserve its
non-zeroness). A `StypMulDiv` scalar of `1` is not excluded:
`stypMul`/`stypDiv` short-circuit it, but `negate` on a scalar `-1` node
produces a reachable scalar `1` node. -/
def WF : StypNum → Bool
  | .dim _ _ _ => true
  | .zero _ => true
  | .addSub l _ r _ =>
      WF l && WF r && priorityOf l == .usual && priorityOf r == .usual
        && !isZeroVariant l && !isZeroVariant r
  | .mulDiv l op r _ =>
      WF l && priorityOf l == .usual && !isZeroVariant l
        && (op == .div || decide (r ≠ 0))

/-! JS string primitives, modelled over character lists (JS operates on
UTF-16 code units; on the basic-plane characters the core manipulates, code
units and code points coincide). -/

/-- `String.prototype.endsWith(suffix)`. -/
def jsEndsWith (s suffix : String) : Bool := suffix.data.isSuffixOf s.data

/-- `s.substring(0, s.length - n)`: drop the last `n` code units. -/
def jsDropRight (s : String) (n : Nat) : String := ⟨s.data.take (s.data.length - n)⟩

/-- `String.prototype.trim()`: strip leading and trailing whitespace. -/
def jsTrim (s : String) : String :=
  ⟨((s.data.dropWhile Char.isWhitespace).reverse.dropWhile Char.isWhitespace).reverse⟩

/-- The number of code units of a string (`String.prototype.length`). -/
def jsLength (s : String) : Nat := s.data.length

/-- Split a character list at the first occurrence of `sep`; `none` when
`sep` does not occur. -/
def splitCharsAtFirst (sep : Char) : List Char → Option (List Char × List Char)
  | [] => none
  | ch :: rest =>
      if ch = sep then some ([], rest)
      else
        match splitCharsAtFirst sep rest with
        | none => none
        | some (a, b) => some (ch :: a, b)

/-- Split a string at the first occurrence of `sep`. -/
def firstSplit (sep : Char) (s : String) : Option (String × String) :=
  match splitCharsAtFirst sep s.data with
  | none => none
  | some (a, b) => some (⟨a⟩, ⟨b⟩)

/-- Strict lexicographic order on code-unit sequences (the order JS string
comparison and array sort use). -/
def charsLt : List Char → List Char → Bool
  | [], [] => false
  | [], _ :: _ => true
  | _ :: _, [] => false
  | a :: as, b :: bs =>
      if a.toNat < b.toNat then true
      else if b.toNat < a.toNat then false
      else charsLt as bs

/-- Non-strict lexicographic order on strings. -/
def strLe (a b : String) : Bool := !charsLt b.data a.data

/-- `StypValue`: a scalar CSS property value (`string | number | boolean |
undefined`) or a structured numeric value (`value.ts`). -/
inductive StypValue where
  | str (s : String)
  | num (n : ℚ)
  | bool (b : Bool)
  | undef
  | numeric (v : StypNum)
deriving DecidableEq, Repr

/-- `Zero.is(other)` (the `Zero` class of `numeric/numeric.impl.ts`): a
structured `other` matches when its `type` is `'0'` and its priority matches;
the scalars `0` and `'0'` match exactly a usual-priority zero; the string
`'0 !important'` matches exactly an important one; every other value is
unequal. `p` is the receiver zero's priority. -/
def zeroIs (p : Priority) : StypValue → Bool
  | .numeric v => isZeroVariant v && priorityOf v == p
  | .num n => if n = 0 then p == .usual else false
  | .str s =>
      if s = "0" then p == .usual
      else if s = "0 !important" then p == .important
      else false
  | .bool _ => false
  | .undef => false

/-- Modelled from the spec: the constant `IMPORTANT_CSS_SUFFIX` lives in
`src/internal`, which is not part of the provided sources; per the spec it
is the literal suffix `" !important"` (case/spacing exact). -/
def IMPORTANT_CSS_SUFFIX : String := " !important"

/-- `stypSplitPriority(value)` (`value.ts`): `undefined` maps to the empty
tuple; a structured value with truthy priority maps to its usual variant
paired with that priority; a string ending in `IMPORTANT_CSS_SUFFIX` has the
suffix removed (`substring`) and the remainder trimmed, paired with
`'important'`; everything else is returned as-is with no priority (`usual`
stands for the absent priority component). -/
def stypSplitPriority : StypValue → StypValue × Priority
  | .undef => (.undef, .usual)
  | .numeric v =>
      if priorityOf v = .important then (.numeric (usual v), .important)
      else (.numeric v, .usual)
  | .str s =>
      if jsEndsWith s IMPORTANT_CSS_SUFFIX then
        (.str (jsTrim (jsDropRight s (jsLength IMPORTANT_CSS_SUFFIX))), .important)
      else (.str s, .usual)
  | .num n => (.num n, .usual)
  | .bool b => (.bool b, .usual)

/-! ## Selector model

The normalization routine `stypSelector` lives in `src/selector/selector.impl.ts`,
which is not among the provided sources (only its test suite is); it is
modelled from the spec (§4.1) below, and the worked examples of the test
suite hold of the model. The text formatter `formatSelector`
(`selector-text.impl.ts`) and the render-pipeline selector resolution
`ruleSelector` (`produce-basic-style.ts`) are translated from the source. -/

/-- A combinator token: `'>' | '+' | '~'`. -/
inductive StypCombinator where
  | child
  | adjacent
  | sibling
deriving DecidableEq, Repr

/-- A selector part: optional namespace, element, id, raw text, plus class
and qualifier lists (a raw part may supply a single string where a list is
expected; the model takes the list form, a singleton standing for the single
string). -/
structure StypPart where
  ns : Option String := none
  e : Option String := none
  i : Option String := none
  s : Option String := none
  c : List String := []
  q : List String := []
deriving DecidableEq, Repr

/-- One item of a selector sequence: a part or a combinator. -/
inductive SelItem where
  | part (p : StypPart)
  | comb (c : StypCombinator)
deriving DecidableEq, Repr

/-- Raw selector input: a raw string, a part-like structure, or a sequence
mixing both with combinator tokens. -/
inductive StypSelectorInput where
  | str (s : String)
  | part (p : StypPart)
  | seq (items : List SelItem)
deriving DecidableEq, Repr

/-- `isCombinator(item)` (`selector.impl.ts`, used by `produce-basic-style.ts`). -/
def isCombItem : SelItem → Bool
  | .comb _ => true
  | .part _ => false

/-- Insert a string into a lexicographically sorted, deduplicated list. -/
def insertSorted (x : String) : List String → List String
  | [] => [x]
  | y :: ys =>
      if x = y then y :: ys
      else if strLe x y then x :: y :: ys
      else y :: insertSorted x ys

/-- Sort a list of strings lexicographically, dropping duplicates. -/
def sortDedup (l : List String) : List String := l.foldr insertSorted []

/-- Modelled from the spec: qualifier exposure (§4.1 rule (d)). A qualifier
of the form `name:rest` additionally exposes the bare `name` and
`name:firstSegmentOfRestBeforeAnyEquals`; any other qualifier exposes only
itself. -/
def exposeQualifier (qv : String) : List String :=
  match firstSplit (':') qv with
  | none => [qv]
  | some (nm, rest) =>
      let seg :=
        match firstSplit ('=') rest with
        | none => rest
        | some (sg, _) => sg
      [nm, nm ++ (":") ++ seg, qv]

/-- An option-valued string field with the empty string counting as unset. -/
def optNonEmpty : Option String → Option String
  | none => none
  | some s => if s = "" then none else some s

/-- Modelled from the spec: normalization of one part-like structure (§4.1
rules (a), (b), (d)): class and qualifier lists are deduplicated,
lexicographically sorted and stripped of empty strings, qualifiers are
expanded by exposure, empty string fields count as unset, and a part with no
set field reduces to nothing. -/
def normalizePart (p : StypPart) : Option StypPart :=
  let ns := optNonEmpty p.ns
  let e := optNonEmpty p.e
  let i := optNonEmpty p.i
  let s := optNonEmpty p.s
  let c := sortDedup (p.c.filter (fun cl => cl ≠ ""))
  let q := sortDedup (((p.q.filter (fun qv => qv ≠ "")).map exposeQualifier).flatten)
  if ns = none ∧ e = none ∧ i = none ∧ s = none ∧ c = [] ∧ q = [] then none
  else some ⟨ns, e, i, s, c, q⟩

/-- Modelled from the spec: item-wise normalization of a selector sequence.
A raw string becomes a raw-only part (dropped when empty), a part-like
structure is normalized (dropped when empty), a combinator is kept for the
stripping pass. -/
def cleanItems (l : List SelItem) : List SelItem :=
  (l.map fun it =>
    match it with
    | .part p =>
        match normalizePart p with
        | none => []
        | some np => [SelItem.part np]
    | .comb c => [SelItem.comb c]).flatten

/-- Drop a leading run of combinators. -/
def dropLeadCombs : List SelItem → List SelItem
  | [] => []
  | .comb _ :: rest => dropLeadCombs rest
  | .part p :: rest => .part p :: rest

/-- Modelled from the spec: combinator stripping (§4.1 rule (c)) after the
first part, carrying the first combinator of the current run as pending
state. A run of combinators keeps only its first member and only when a
part follows; a trailing run is dropped entirely. -/
def stripComb : Option StypCombinator → List SelItem → List SelItem
  | _, [] => []
  | none, .part p :: rest => .part p :: stripComb none rest
  | none, .comb c :: rest => stripComb (some c) rest
  | some c, .part p :: rest => .comb c :: .part p :: stripComb none rest
  | some c, .comb _ :: rest => stripComb (some c) rest

/-- Modelled from the spec: normalization of a selector item sequence:
item-wise normalization, then a leading combinator run and every later
meaningless combinator are stripped. -/
def stypSelectorSeq (l : List SelItem) : List SelItem :=
  match dropLeadCombs (cleanItems l) with
  | [] => []
  | x :: rest => x :: stripComb none rest

/-- Modelled from the spec: `stypSelector(input)` — a raw string is wrapped
as a single raw part, a part-like structure as a one-part sequence, and a
sequence is normalized as a whole. -/
def stypSelector : StypSelectorInput → List SelItem
  | .str s => stypSelectorSeq [.part { s := some s }]
  | .part p => stypSelectorSeq [.part p]
  | .seq items => stypSelectorSeq items

/-- `ruleSelector(rule)` (`produce-basic-style.ts`): an empty rule selector
resolves to the normalized configured root selector; a selector starting
with a combinator is prefixed with the normalized root selector; any other
selector is used as-is. -/
def ruleSelector (rootSelector : StypSelectorInput) (selector : List SelItem) :
    List SelItem :=
  match selector with
  | [] => stypSelector rootSelector
  | .comb c :: rest => stypSelector rootSelector ++ (SelItem.comb c :: rest)
  | .part p :: rest => .part p :: rest

/-- The combinator's verbatim text. -/
def combText : StypCombinator → String
  | .child => ">"
  | .adjacent => "+"
  | .sibling => "~"

/-- JS template-literal rendering of a possibly-undefined string. -/
def jsStr : Option String → String
  | none => "undefined"
  | some s => s

/-- `formatItem` (`selector-text.impl.ts`): a combinator renders verbatim; a
part renders `ns|e` when a namespace is present and `e || ''` otherwise,
then `#id` (identifier-escaped), each class as `.class` (escaped), then the
raw suffix through `formatRaw`. `esc` stands for the external `cssescId`
identifier-escaping collaborator. -/
def formatItem (esc formatRaw : String → String) : SelItem → String
  | .comb c => combText c
  | .part pt =>
      let s0 : String :=
        match pt.ns with
        | some nsv => nsv ++ ("|") ++ jsStr pt.e
        | none => (optNonEmpty pt.e).getD ("")
      let s1 : String :=
        match optNonEmpty pt.i with
        | some iv => s0 ++ ("#") ++ esc iv
        | none => s0
      let s2 : String := pt.c.foldl (fun acc cl => acc ++ (".") ++ esc cl) s1
      match optNonEmpty pt.s with
      | some sv => s2 ++ formatRaw sv
      | none => s2

/-- `formatSelector(selector, formatRaw)` (`selector-text.impl.ts`): the
concatenation of the items' formatted texts. -/
def formatSelector (esc formatRaw : String → String) (selector : List SelItem) :
    String :=
  selector.foldl (fun result item => result ++ formatItem esc formatRaw item) ("")

/-! ## Render pipeline: clear-before-rewrite -/

/-- A rendered CSS rule of a style sheet, kept opaque. -/
abbrev CSSRuleModel : Type := String

/-- `clearProperties(sheet)` (`produce-basic-style.ts`): while the sheet has
rules, delete the last one. -/
def clearProperties : List CSSRuleModel → List CSSRuleModel
  | [] => []
  | r :: rs => clearProperties ((r :: rs).dropLast)
termination_by l => l.length
decreasing_by
  simp [List.length_dropLast]

/-- The body of the render job scheduled by `renderProperties`
(`produce-basic-style.ts`): when a previously created render target exists it
is cleared first, otherwise a fresh (empty) style sheet is created lazily;
the renderer chain then appends the freshly rendered rules. -/
def runRenderJob (sheetRef : Option (List CSSRuleModel))
    (newRules : List CSSRuleModel) : List CSSRuleModel :=
  (match sheetRef with
   | some sheet => clearProperties sheet
   | none => []) ++ newRules

/-- Whether two values are plain dimensions with identical units. -/
def sameUnitDims : StypNum → StypNum → Bool
  | .dim _ u _, .dim _ u' _ => u == u'
  | _, _ => false

/-! ## Helper lemmas -/

theorem prioritize_self (v : StypNum) : prioritize v (priorityOf v) = v := by
  cases v <;> simp [prioritize, priorityOf]

theorem priorityOf_prioritize (v : StypNum) (q : Priority) :
    priorityOf (prioritize v q) = q := by
  cases v with
  | dim val u p => simp only [prioritize]; split <;> simp_all [priorityOf]
  | zero p => rfl
  | addSub l op r p => simp only [prioritize]; split <;> simp_all [priorityOf]
  | mulDiv l op r p => simp only [prioritize]; split <;> simp_all [priorityOf]

theorem usual_of_priority_usual {v : StypNum} (h : priorityOf v = .usual) :
    usual v = v := by
  rw [usual, ← h, prioritize_self]

theorem priorityOf_negate (k : ZeroSpec) (v : StypNum) :
    priorityOf (negate k v) = priorityOf v := by
  cases v with
  | dim val u p =>
      simp only [negate, stypDimension]
      split
      · rw [priorityOf_prioritize]; rfl
      · rfl
  | zero p => rfl
  | addSub l op r p => cases op <;> rfl
  | mulDiv l op r p => rfl

theorem prioritize_kindZero_unitless (q : Priority) :
    prioritize (kindZero .unitless) q = .zero q := rfl

theorem prioritize_kindZero_unitZero (zu : String) (q : Priority) :
    prioritize (kindZero (.unitZero zu)) q = .dim 0 zu q := by
  cases q <;> rfl

theorem prioritize_kindZero_prioritize (k : ZeroSpec) (q p : Priority) :
    prioritize (prioritize (kindZero k) q) p = prioritize (kindZero k) p := by
  cases k with
  | unitless => rfl
  | unitZero zu =>
      rw [prioritize_kindZero_unitZero, prioritize_kindZero_unitZero]
      cases q <;> cases p <;> rfl

theorem prioritize_mulDiv_usual (l : StypNum) (op : MulDivOp) (r : ℚ)
    (p : Priority) (hl : priorityOf l = .usual) :
    prioritize (.mulDiv l op r .usual) p = .mulDiv l op r p := by
  cases p with
  | usual => rfl
  | important =>
      have h : prioritize l .usual = l := usual_of_priority_usual hl
      simp [prioritize, h]

theorem typeOf_prioritize (v : StypNum) (p : Priority) :
    typeOf (prioritize v p) = typeOf v := by
  cases v with
  | dim val u pr => simp only [prioritize]; split <;> rfl
  | zero pr => rfl
  | addSub l op r pr => simp only [prioritize]; split <;> rfl
  | mulDiv l op r pr => simp only [prioritize]; split <;> rfl

theorem clearProperties_eq_nil (l : List CSSRuleModel) : clearProperties l = [] := by
  have key : ∀ (n : Nat) (t : List CSSRuleModel), t.length ≤ n → clearProperties t = [] := by
    intro n
    induction n with
    | zero =>
        intro t h
        have ht : t = [] := List.eq_nil_of_length_eq_zero (Nat.le_zero.mp h)
        rw [ht, clearProperties]
    | succ n ih =>
        intro t h
        match t with
        | [] => rw [clearProperties]
        | r :: rs =>
            rw [clearProperties]
            apply ih
            simp only [List.dropLast_cons_of_ne_nil, List.length_dropLast, List.length_cons] at h ⊢
            omega
  exact key l.length l le_rfl

theorem formatSelector_foldl (esc fr : String → String) (l : List SelItem)
    (acc : String) :
    List.foldl (fun result item => result ++ formatItem esc fr item) acc l
      = acc ++ formatSelector esc fr l := by
  induction l generalizing acc with
  | nil => simp [formatSelector]
  | cons x xs ih =>
      simp only [formatSelector, List.foldl_cons] at ih ⊢
      rw [ih, ih (("") ++ formatItem esc fr x), String.append_assoc]
      simp

theorem formatSelector_append (esc fr : String → String) (a b : List SelItem) :
    formatSelector esc fr (a ++ b)
      = formatSelector esc fr a ++ formatSelector esc fr b := by
  simp only [formatSelector, List.foldl_append]
  rw [formatSelector_foldl]
  rfl

theorem formatSelector_cons (esc fr : String → String) (x : SelItem)
    (l : List SelItem) :
    formatSelector esc fr (x :: l)
      = formatItem esc fr x ++ formatSelector esc fr l := by
  simp only [formatSelector, List.foldl_cons]
  rw [formatSelector_foldl]
  simp [formatSelector]

/-! ## Claims -/

/-- C1: `ruleSelector` resolves a node's selector against the configured
root selector: an empty own selector renders as the normalized root
selector; a selector starting with a combinator is prefixed with the
normalized root selector and renders as the root selector's text, the
combinator token, then the rest's text; any other selector is used
unchanged. -/
theorem ruleSelector_resolution (root : StypSelectorInput) (c : StypCombinator)
    (rest tail : List SelItem) (pt : StypPart) (esc fr : String → String) :
    ruleSelector root [] = stypSelector root
    ∧ ruleSelector root (.comb c :: rest) = stypSelector root ++ (.comb c :: rest)
    ∧ formatSelector esc fr (ruleSelector root (.comb c :: rest))
        = formatSelector esc fr (stypSelector root) ++ combText c
            ++ formatSelector esc fr rest
    ∧ ruleSelector root (.part pt :: tail) = .part pt :: tail := by
  refine ⟨rfl, rfl, ?_, rfl⟩
  show formatSelector esc fr (stypSelector root ++ (SelItem.comb c :: rest)) = _
  rw [formatSelector_append, formatSelector_cons, String.append_assoc]
  rfl

/-- C2: when a render job executes with a previously created render target,
`clearProperties` deletes every rule previously written to it before the new
property set is rendered, so the resulting target holds exactly the freshly
rendered rules — never declarations from two different renders at once. -/
theorem renderJob_clears_before_render (prior newRules : List CSSRuleModel)
    (sheetRef : Option (List CSSRuleModel)) (r : CSSRuleModel)
    (hr : r ∈ runRenderJob sheetRef newRules) :
    clearProperties prior = []
    ∧ runRenderJob (some prior) newRules = newRules
    ∧ r ∈ newRules := by
  refine ⟨clearProperties_eq_nil prior, ?_, ?_⟩
  · simp [runRenderJob, clearProperties_eq_nil]
  · cases sheetRef <;> simp_all [runRenderJob, clearProperties_eq_nil]

/-- C2 witness: the theorem applied to a concrete prior sheet and a concrete
fresh render. -/
theorem renderJob_clears_before_render_witness :
    clearProperties [("color:red")] = []
    ∧ runRenderJob (some [("color:red")]) [("color:blue")] = [("color:blue")]
    ∧ ("color:blue") ∈ [("color:blue")] :=
  renderJob_clears_before_render [("color:red")] [("color:blue")]
    (some [("color:red")]) ("color:blue")
    (by simp [runRenderJob, clearProperties, List.dropLast])

/-- C4: zero is an algebraic identity of its kind: adding the kind's zero to
any value returns that value itself; multiplying zero by any number returns
zero; and `Zero.prioritize` returns the interned per-priority singleton with
no allocation (allocation count `0`), for both the usual and the important
singleton. -/
theorem zero_identity (k : ZeroSpec) (x : StypNum) (n : ℚ) (p q : Priority) :
    add k x (.zero .usual) = x
    ∧ mul k (.zero p) n = .zero p
    ∧ prioritizeA (.zero p) q = (.zero q, 0) := by
  refine ⟨?_, rfl, rfl⟩
  cases x with
  | dim v u pr => simp [add, stypAddSub, isZeroVariant]
  | zero pr => simp [add, prioritize]
  | addSub l op r pr => simp [add, stypAddSub, isZeroVariant]
  | mulDiv l op r pr => simp [add, stypAddSub, isZeroVariant]

/-- C8: the worked qualifier-exposure example: normalizing a selector part
with qualifiers `foo:def`, `foo:z`, `bar:abc=vvv:xxx` yields exactly the
sorted qualifier set `bar`, `bar:abc`, `bar:abc=vvv:xxx`, `foo`, `foo:def`,
`foo:z` — each `name:rest` qualifier exposes the bare prefix and the prefix
plus first segment before any equals sign, and nothing else. -/
theorem stypSelector_exposes_qualifiers :
    stypSelector (.part { q := ["foo:def", "foo:z", "bar:abc=vvv:xxx"] })
      = [.part { q := ["bar", "bar:abc", "bar:abc=vvv:xxx",
                       "foo", "foo:def", "foo:z"] }] := by
  decide

/-- C9: `Zero.is` on scalar encodings: a usual-priority zero equals the
number `0` and the string `'0'` but not `'0 !important'`; an
important-priority zero equals exactly `'0 !important'` but neither `0` nor
`'0'`; every other scalar (non-zero numbers, other strings, booleans,
undefined) compares unequal at either priority. -/
theorem zero_is_scalars (n : ℚ) (s : String) (b : Bool) (p : Priority)
    (hn : n ≠ 0) (hs0 : s ≠ "0") (hsi : s ≠ "0 !important") :
    zeroIs .usual (.num 0) = true
    ∧ zeroIs .usual (.str ("0")) = true
    ∧ zeroIs .usual (.str ("0 !important")) = false
    ∧ zeroIs .important (.str ("0 !important")) = true
    ∧ zeroIs .important (.num 0) = false
    ∧ zeroIs .important (.str ("0")) = false
    ∧ zeroIs p (.num n) = false
    ∧ zeroIs p (.str s) = false
    ∧ zeroIs p (.bool b) = false
    ∧ zeroIs p .undef = false := by
  refine ⟨by decide, by decide, by decide, by decide, by decide, by decide,
    ?_, ?_, rfl, rfl⟩
  · simp [zeroIs, hn]
  · simp [zeroIs, hs0, hsi]

/-- C9 witness: the theorem applied at the concrete scalars `2`, `"x"`,
`true` and usual priority. -/
theorem zero_is_scalars_witness :
    zeroIs .usual (.num 0) = true
    ∧ zeroIs .usual (.str ("0")) = true
    ∧ zeroIs .usual (.str ("0 !important")) = false
    ∧ zeroIs .important (.str ("0 !important")) = true
    ∧ zeroIs .important (.num 0) = false
    ∧ zeroIs .important (.str ("0")) = false
    ∧ zeroIs .usual (.num 2) = false
    ∧ zeroIs .usual (.str ("x")) = false
    ∧ zeroIs .usual (.bool true) = false
    ∧ zeroIs .usual .undef = false :=
  zero_is_scalars 2 ("x") true .usual (by norm_num) (by decide) (by decide)

/-- C3 counterexample: adding the kind's interned zero to a plain dimension
is not one of the two cases of the claim (the operands are not both plain
dimensions), yet the result is the dimension itself — not a calc expression
node as the claim requires for every other case. -/
theorem add_zero_right_counterexample :
    typeOf (add .unitless (.dim 12 ("px") .usual) (.zero .usual))
      = "dimension" := by
  decide

/-- C3 (amended): same-unit plain dimensions add/sub to a plain dimension
with the summed/subtracted value (left operand's unit and priority),
collapsing to the kind's canonical zero prioritized to the left priority
when the result is exactly 0; when the right operand is the interned zero
the left operand is returned unchanged, and when the left operand is the
interned zero the result is the right operand (negated, for sub)
reprioritized to the zero's priority; in every other case the result is a
calc expression node. -/
theorem add_sub_amended (k : ZeroSpec) (a b : StypNum) (v w : ℚ)
    (u : String) (p p' : Priority)
    (ha : isZeroVariant a = false) (hb : isZeroVariant b = false)
    (hd : sameUnitDims a b = false) :
    add k (.dim v u p) (.dim w u p')
        = (if v + w = 0 then prioritize (kindZero k) p else .dim (v + w) u p)
    ∧ sub k (.dim v u p) (.dim w u p')
        = (if v - w = 0 then prioritize (kindZero k) p else .dim (v - w) u p)
    ∧ add k a (.zero p') = a
    ∧ sub k a (.zero p') = a
    ∧ add k (.zero p) b = prioritize b p
    ∧ sub k (.zero p) b = prioritize (negate k b) p
    ∧ typeOf (add k a b) = "calc"
    ∧ typeOf (sub k a b) = "calc" := by
  refine ⟨by simp [add, stypDimension], by simp [sub, stypDimension],
    ?_, ?_, rfl, rfl, ?_, ?_⟩
  · cases a <;> simp_all [add, stypAddSub, isZeroVariant]
  · cases a <;> simp_all [sub, stypAddSub, isZeroVariant]
  · cases a with
    | dim va ua pa =>
        cases b <;>
          simp_all [add, stypAddSub, isZeroVariant, sameUnitDims, typeOf]
    | zero pa => simp_all [isZeroVariant]
    | addSub l op r pa => simp_all [add, stypAddSub, typeOf]
    | mulDiv l op r pa => simp_all [add, stypAddSub, typeOf]
  · cases a with
    | dim va ua pa =>
        cases b <;>
          simp_all [sub, stypAddSub, isZeroVariant, sameUnitDims, typeOf]
    | zero pa => simp_all [isZeroVariant]
    | addSub l op r pa => simp_all [sub, stypAddSub, typeOf]
    | mulDiv l op r pa => simp_all [sub, stypAddSub, typeOf]

/-- C3 witness: the amended theorem applied to concrete dimensions of
different units. -/
theorem add_sub_amended_witness :
    add .unitless (.dim 1 ("px") .usual) (.dim 2 ("px") .usual)
        = (if (1 : ℚ) + 2 = 0 then prioritize (kindZero .unitless) .usual
           else .dim (1 + 2) ("px") .usual)
    ∧ sub .unitless (.dim 1 ("px") .usual) (.dim 2 ("px") .usual)
        = (if (1 : ℚ) - 2 = 0 then prioritize (kindZero .unitless) .usual
           else .dim (1 - 2) ("px") .usual)
    ∧ add .unitless (.dim 1 ("px") .usual) (.zero .usual) = .dim 1 ("px") .usual
    ∧ sub .unitless (.dim 1 ("px") .usual) (.zero .usual) = .dim 1 ("px") .usual
    ∧ add .unitless (.zero .usual) (.dim 2 ("em") .usual)
        = prioritize (.dim 2 ("em") .usual) .usual
    ∧ sub .unitless (.zero .usual) (.dim 2 ("em") .usual)
        = prioritize (negate .unitless (.dim 2 ("em") .usual)) .usual
    ∧ typeOf (add .unitless (.dim 1 ("px") .usual) (.dim 2 ("em") .usual)) = "calc"
    ∧ typeOf (sub .unitless (.dim 1 ("px") .usual) (.dim 2 ("em") .usual)) = "calc" :=
  add_sub_amended .unitless (.dim 1 ("px") .usual) (.dim 2 ("em") .usual)
    1 2 ("px") .usual .usual (by decide) (by decide) (by decide)

/-- C6: `negate` never wraps in a double negative: negating a subtraction
swaps its operands (same priority), negating an addition negates the left
operand and turns the node into a subtraction, negating a multiplication or
division by a scalar flips the scalar's sign, and negating a plain dimension
negates its numeric value. -/
theorem negate_no_double_wrapper (k : ZeroSpec) (l r : StypNum) (v m : ℚ)
    (u : String) (p : Priority) (op : MulDivOp)
    (hl : priorityOf l = .usual) (hr : priorityOf r = .usual) (hv : v ≠ 0) :
    negate k (.addSub l .sub r p) = .addSub r .sub l p
    ∧ negate k (.addSub l .add r p) = .addSub (negate k l) .sub r p
    ∧ negate k (.mulDiv l op m p) = .mulDiv l op (-m) p
    ∧ negate k (.dim v u p) = .dim (-v) u p := by
  have hul : usual l = l := usual_of_priority_usual hl
  have hur : usual r = r := usual_of_priority_usual hr
  have hnl : usual (negate k l) = negate k l :=
    usual_of_priority_usual (by rw [priorityOf_negate, hl])
  refine ⟨?_, ?_, ?_, ?_⟩
  · simp [negate, hul, hur]
  · simp [negate, hur, hnl]
  · simp [negate, hul]
  · simp [negate, stypDimension, neg_eq_zero, hv]

/-- C6 witness: the theorem applied to concrete usual-priority operands and
a non-zero dimension value. -/
theorem negate_no_double_wrapper_witness :
    negate .unitless (.addSub (.dim 1 ("px") .usual) .sub (.dim 2 ("em") .usual) .usual)
        = .addSub (.dim 2 ("em") .usual) .sub (.dim 1 ("px") .usual) .usual
    ∧ negate .unitless (.addSub (.dim 1 ("px") .usual) .add (.dim 2 ("em") .usual) .usual)
        = .addSub (negate .unitless (.dim 1 ("px") .usual)) .sub (.dim 2 ("em") .usual) .usual
    ∧ negate .unitless (.mulDiv (.dim 1 ("px") .usual) .mul 3 .usual)
        = .mulDiv (.dim 1 ("px") .usual) .mul (-3) .usual
    ∧ negate .unitless (.dim 5 ("px") .usual) = .dim (-5) ("px") .usual :=
  negate_no_double_wrapper .unitless (.dim 1 ("px") .usual) (.dim 2 ("em") .usual)
    5 3 ("px") .usual .mul rfl rfl (by norm_num)

/-- C7 counterexample: on the string value made of the letter a, two spaces
and the important suffix, the code removes the suffix and then trims the
remainder, so the value component is the single letter a rather than the
letter a followed by a space that mere suffix removal would produce. -/
theorem stypSplitPriority_trim_counterexample :
    stypSplitPriority (.str ("a  !important")) ≠ (.str ("a "), .important) := by
  decide

/-- C7 (amended): `stypSplitPriority` decomposes a value into a
(value-without-priority, priority) pair: a structured value with important
priority maps to its usual-priority variant paired with important priority,
a structured value with usual priority is returned unchanged; a string
ending in the exact suffix of a space and the word important has that suffix
removed and the remainder whitespace-trimmed, paired with important
priority; every other value (other strings, numbers, booleans, undefined) is
returned unchanged with no priority. -/
theorem stypSplitPriority_amended (vi vu : StypNum) (s t : String) (n : ℚ)
    (b : Bool)
    (hvi : priorityOf vi = .important) (hvu : priorityOf vu = .usual)
    (hs : jsEndsWith s IMPORTANT_CSS_SUFFIX = true)
    (ht : jsEndsWith t IMPORTANT_CSS_SUFFIX = false) :
    stypSplitPriority (.numeric vi) = (.numeric (usual vi), .important)
    ∧ stypSplitPriority (.numeric vu) = (.numeric vu, .usual)
    ∧ stypSplitPriority (.str s)
        = (.str (jsTrim (jsDropRight s (jsLength IMPORTANT_CSS_SUFFIX))), .important)
    ∧ stypSplitPriority (.str t) = (.str t, .usual)
    ∧ stypSplitPriority (.num n) = (.num n, .usual)
    ∧ stypSplitPriority (.bool b) = (.bool b, .usual)
    ∧ stypSplitPriority .undef = (.undef, .usual) := by
  refine ⟨?_, ?_, ?_, ?_, rfl, rfl, rfl⟩
  · simp [stypSplitPriority, hvi]
  · simp [stypSplitPriority, hvu]
  · simp [stypSplitPriority, hs]
  · simp [stypSplitPriority, ht]

/-- C7 witness: the amended theorem applied to concrete structured values
and strings. -/
theorem stypSplitPriority_amended_witness :
    stypSplitPriority (.numeric (.dim 1 ("px") .important))
        = (.numeric (usual (.dim 1 ("px") .important)), .important)
    ∧ stypSplitPriority (.numeric (.zero .usual)) = (.numeric (.zero .usual), .usual)
    ∧ stypSplitPriority (.str ("12px !important"))
        = (.str (jsTrim (jsDropRight ("12px !important")
            (jsLength IMPORTANT_CSS_SUFFIX))), .important)
    ∧ stypSplitPriority (.str ("12px")) = (.str ("12px"), .usual)
    ∧ stypSplitPriority (.num 5) = (.num 5, .usual)
    ∧ stypSplitPriority (.bool true) = (.bool true, .usual)
    ∧ stypSplitPriority .undef = (.undef, .usual) :=
  stypSplitPriority_amended (.dim 1 ("px") .important) (.zero .usual)
    ("12px !important") ("12px") 5 true rfl rfl (by decide) (by decide)

/-- C5 counterexample: the public-API chain of adding two dimensions,
multiplying by -1 and negating yields a multiplication calc node with
scalar 1; multiplying that node by 1 is not a no-op returning the same
value — it collapses to the inner addition operand instead. -/
theorem mul_one_unit_scalar_counterexample :
    mul .unitless
        (negate .unitless
          (mul .unitless
            (add .unitless (.dim 1 ("px") .usual) (.dim 2 ("em") .usual))
            (-1)))
        1
      ≠ negate .unitless
          (mul .unitless
            (add .unitless (.dim 1 ("px") .usual) (.dim 2 ("em") .usual))
            (-1)) := by
  norm_num [add, stypAddSub, isZeroVariant, usual, prioritize, priorityOf,
    mul, stypMul, negate]
  intro h
  exact StypNum.noConfusion h

/-- C5 (amended): multiplying or dividing any well-formed structured numeric
value by 1 returns the same value structurally — except a calc
multiplication/division node whose scalar is exactly 1 (reachable by
negating a scalar -1 node), for which mul(1) and div(1) instead return the
node's inner operand reprioritized to the node's priority; multiplying a
plain dimension scales its numeric value; and multiplying (dividing) a calc
multiplication (division) node folds the scalars into the existing node
rather than nesting a new wrapper. -/
theorem mul_div_one_and_fold (k : ZeroSpec) (v l l2 : StypNum)
    (vv r m d : ℚ) (u : String) (p p2 : Priority) (op2 : MulDivOp)
    (hWF : WF v = true) (hv1 : isUnitScalarNode v = false)
    (hl : priorityOf l = .usual)
    (hvm : vv * m ≠ 0) (hrm0 : r * m ≠ 0) (hrm1 : r * m ≠ 1)
    (hrd : r * d ≠ 1) :
    mul k v 1 = v
    ∧ div k v 1 = v
    ∧ mul k (.mulDiv l2 op2 1 p2) 1 = prioritize l2 p2
    ∧ div k (.mulDiv l2 op2 1 p2) 1 = prioritize l2 p2
    ∧ mul k (.dim vv u p) m = .dim (vv * m) u p
    ∧ mul k (.mulDiv l .mul r p) m = .mulDiv l .mul (r * m) p
    ∧ div k (.mulDiv l .div r p) d = .mulDiv l .div (r * d) p := by
  have hul : prioritize l .usual = l := usual_of_priority_usual hl
  refine ⟨?_, ?_, ?_, ?_, ?_, ?_, ?_⟩
  · cases v with
    | dim va ua pa => simp [mul]
    | zero pa => rfl
    | addSub la opa ra pa => simp [mul, stypMul, prioritize_self]
    | mulDiv la opa ra pa =>
        simp only [WF, Bool.and_eq_true, beq_iff_eq, Bool.not_eq_true',
          decide_eq_true_eq, Bool.or_eq_true] at hWF
        obtain ⟨⟨⟨hwl, hpl⟩, hzl⟩, hop⟩ := hWF
        have hr1 : ra ≠ 1 := by
          simpa [isUnitScalarNode] using hv1
        have hula : prioritize la .usual = la := usual_of_priority_usual hpl
        cases opa with
        | mul =>
            have hr0 : ra ≠ 0 := by
              rcases hop with hop | hop
              · exact absurd hop (by simp)
              · exact hop
            simp [mul, stypMul, hr0, hr1, usual, hula, hpl,
              prioritize_mulDiv_usual _ _ _ _ hpl]
        | div =>
            simp [mul, stypDiv, hr1, usual, hula, hpl,
              prioritize_mulDiv_usual _ _ _ _ hpl]
  · cases v with
    | dim va ua pa => simp [div]
    | zero pa => rfl
    | addSub la opa ra pa => simp [div, stypDiv, prioritize_self]
    | mulDiv la opa ra pa =>
        simp only [WF, Bool.and_eq_true, beq_iff_eq, Bool.not_eq_true',
          decide_eq_true_eq, Bool.or_eq_true] at hWF
        obtain ⟨⟨⟨hwl, hpl⟩, hzl⟩, hop⟩ := hWF
        have hr1 : ra ≠ 1 := by
          simpa [isUnitScalarNode] using hv1
        have hula : prioritize la .usual = la := usual_of_priority_usual hpl
        cases opa with
        | mul =>
            have hr0 : ra ≠ 0 := by
              rcases hop with hop | hop
              · exact absurd hop (by simp)
              · exact hop
            simp [div, stypMul, hr0, hr1, usual, hula, hpl,
              prioritize_mulDiv_usual _ _ _ _ hpl]
        | div =>
            simp [div, stypDiv, hr1, usual, hula, hpl,
              prioritize_mulDiv_usual _ _ _ _ hpl]
  · cases op2 with
    | mul => simp [mul, stypMul, prioritize_self]
    | div => simp [mul, stypDiv, prioritize_self]
  · cases op2 with
    | mul => simp [div, stypMul, prioritize_self]
    | div => simp [div, stypDiv, prioritize_self]
  · by_cases hm : m = 1
    · subst hm; simp [mul]
    · simp [mul, hm, stypDimension, hvm]
  · simp [mul, stypMul, hrm0, hrm1, usual, hul, hl,
      prioritize_mulDiv_usual _ _ _ _ hl]
  · simp [div, stypDiv, hrd, usual, hul, hl,
      prioritize_mulDiv_usual _ _ _ _ hl]

/-- C5 witness: the amended theorem applied to a concrete well-formed
dimension, a concrete scalar-1 node and concrete fold scalars 2 and 3. -/
theorem mul_div_one_and_fold_witness :
    mul .unitless (.dim 7 ("px") .usual) 1 = .dim 7 ("px") .usual
    ∧ div .unitless (.dim 7 ("px") .usual) 1 = .dim 7 ("px") .usual
    ∧ mul .unitless (.mulDiv (.dim 4 ("px") .usual) .mul 1 .important) 1
        = prioritize (.dim 4 ("px") .usual) .important
    ∧ div .unitless (.mulDiv (.dim 4 ("px") .usual) .mul 1 .important) 1
        = prioritize (.dim 4 ("px") .usual) .important
    ∧ mul .unitless (.dim 2 ("px") .usual) 3 = .dim (2 * 3) ("px") .usual
    ∧ mul .unitless (.mulDiv (.dim 1 ("px") .usual) .mul 2 .usual) 3
        = .mulDiv (.dim 1 ("px") .usual) .mul (2 * 3) .usual
    ∧ div .unitless (.mulDiv (.dim 1 ("px") .usual) .div 2 .usual) 3
        = .mulDiv (.dim 1 ("px") .usual) .div (2 * 3) .usual :=
  mul_div_one_and_fold .unitless (.dim 7 ("px") .usual) (.dim 1 ("px") .usual)
    (.dim 4 ("px") .usual) 2 2 3 3 ("px") .usual .important .mul
    (by decide) (by decide) rfl (by norm_num) (by norm_num) (by norm_num)
    (by norm_num)

/-- C10 counterexample: multiplying the division calc node 1px divided by 2
by 0 yields a calc node (the zero is folded into the divisor), not the
interned zero of the kind. -/
theorem mul_zero_div_counterexample :
    typeOf (mul .unitless (.mulDiv (.dim 1 ("px") .usual) .div 2 .usual) 0)
      = "calc" := by
  simp only [mul, stypDiv, div_zero]
  rw [if_neg (by norm_num : ¬((0 : ℚ) = 1))]
  rw [typeOf_prioritize]
  rfl

/-- C10 (amended): for every plain dimension or calc value that is not a
division calc node, multiplying by 0 collapses to the canonical zero of the
value's dimension kind reprioritized to the value's own priority (for
unitless-zero kinds, the interned zero singleton — never a dimension and
never a calc node); multiplying a division calc node by 0 instead folds the
scalar into the divisor and yields a division calc node. -/
theorem mul_zero_amended (k : ZeroSpec) (v l : StypNum) (r : ℚ) (p : Priority)
    (hz : isZeroVariant v = false) (hd : isDivNode v = false) :
    mul k v 0 = prioritize (kindZero k) (priorityOf v)
    ∧ typeOf (mul k (.mulDiv l .div r p) 0) = "calc" := by
  constructor
  · cases v with
    | dim va ua pa => simp [mul, stypDimension, priorityOf]
    | zero pa => simp [isZeroVariant] at hz
    | addSub la opa ra pa => simp [mul, stypMul, priorityOf]
    | mulDiv la opa ra pa =>
        cases opa with
        | mul =>
            simp only [mul, stypMul, mul_zero, if_pos rfl, priorityOf]
            exact prioritize_kindZero_prioritize k (priorityOf la) pa
        | div => simp [isDivNode] at hd
  · simp only [mul, stypDiv, div_zero]
    rw [if_neg (by norm_num : ¬((0 : ℚ) = 1))]
    rw [typeOf_prioritize]
    rfl

/-- C10 witness: the amended theorem applied to a concrete important
dimension and a concrete division node. -/
theorem mul_zero_amended_witness :
    mul .unitless (.dim 5 ("px") .important) 0
        = prioritize (kindZero .unitless) (priorityOf (.dim 5 ("px") .important))
    ∧ typeOf (mul .unitless (.mulDiv (.dim 1 ("px") .usual) .div 2 .usual) 0)
        = "calc" :=
  mul_zero_amended .unitless (.dim 5 ("px") .important) (.dim 1 ("px") .usual)
    2 .usual (by decide) (by decide)

end StyleProducer
